import Mathlib

/-!
Verification of the chain-resolution and status-aggregation core of the
arbitrum-mcp server.  The TypeScript sources are embedded shallowly:
pure computations become Lean functions, network effects become explicit
parameters (an `Except` value models a settled promise, a function models
an upstream oracle), and the mutable singleton cache becomes explicit
state passing over a `CacheState` value.  JavaScript `number`/`BigInt`
arithmetic on block numbers and timestamps is modelled with `Int`/`Nat`;
JS string truthiness (empty string is falsy) is modelled explicitly where
the source relies on it.
-/

namespace ArbitrumMcp

/-- JS `s.includes(t)`: `t` occurs as a contiguous substring of `s`. -/
def jsIncludes (s t : String) : Bool := decide (t.data <:+: s.data)

/-- JS `s.startsWith(p)`: `p` is a prefix of `s`. -/
def jsStartsWith (s p : String) : Bool := decide (p.data <+: s.data)

/-- ASCII case folding of one character (the fragment of JS `toLowerCase`
exercised by chain names and slugs). -/
def charToLower (c : Char) : Char :=
  if 'A' ≤ c ∧ c ≤ 'Z' then Char.ofNat (c.toNat + 32) else c

/-- Model of JS `String.prototype.toLowerCase` (ASCII folding). -/
def strToLower (s : String) : String := ⟨s.data.map charToLower⟩

/-- Model of JS `String.prototype.trim`: strip leading and trailing
whitespace. -/
def strTrim (s : String) : String :=
  ⟨((s.data.dropWhile Char.isWhitespace).reverse.dropWhile
      Char.isWhitespace).reverse⟩

/-- Fuel-driven digit accumulator: with fuel at least the digit count of
`n` this is the decimal digit list of `n`, most significant first. -/
def natDigitsAux : Nat → Nat → List Char
  | 0, _ => []
  | fuel + 1, n =>
    if n < 10 then [Nat.digitChar n]
    else natDigitsAux fuel (n / 10) ++ [Nat.digitChar (n % 10)]

/-- Decimal digit list of a natural number, most significant first; the
model of JS `Number`/`BigInt` integer `toString()` used by the embedded
code. -/
def natDigits (n : Nat) : List Char := natDigitsAux (n + 1) n

/-- Decimal string of a natural number (model of JS integer `toString()`). -/
def natStr (n : Nat) : String := ⟨natDigits n⟩

/-- Fuel-driven base-2 logarithm; with fuel at least `n` this is the floor
of the base-2 logarithm of `n` (zero for `n` zero or one). -/
def log2Aux : Nat → Nat → Nat
  | 0, _ => 0
  | fuel + 1, n => if n ≥ 2 then log2Aux fuel (n / 2) + 1 else 0

/-- Floor of the base-2 logarithm of a natural number. -/
def natLog2 (n : Nat) : Nat := log2Aux n n

/-- Decimal string of an integer (model of JS `BigInt.prototype.toString`). -/
def intStr (i : Int) : String :=
  if i < 0 then "-" ++ natStr i.natAbs else natStr i.natAbs

/-- Native-currency descriptor of a chain record
(`src/services/chain-lookup.ts`, `OrbitChainData.nativeCurrency`). -/
structure NativeCurrency where
  name : String
  symbol : String
  decimals : Nat
deriving Repr, DecidableEq

/-- Bridge-contract address bundle (`OrbitChainData.ethBridge`). -/
structure EthBridge where
  bridge : String
  inbox : String
  outbox : String
  rollup : String
  sequencerInbox : String
deriving Repr, DecidableEq

/-- One catalog record (`OrbitChainData` in `src/services/chain-lookup.ts`).
Only the fields consulted by the embedded operations are carried; `slug`
is `Option`-valued because the code reads it defensively with optional
chaining (`chain.slug?.`), and remote entries may omit it. -/
structure OrbitChainData where
  chainId : Nat
  name : String
  slug : Option String
  parentChainId : Nat := 1
  rpcUrl : String
  explorerUrl : Option String := none
  isArbitrum : Bool := true
  isMainnet : Bool := true
  ethBridge : Option EthBridge := none
deriving Repr, DecidableEq

/-- The remote catalog document: a JSON object with optional `mainnet` and
`testnet` arrays (absence of either key is tolerated, `data.mainnet || []`). -/
structure RemoteChainsDoc where
  mainnet : Option (List OrbitChainData)
  testnet : Option (List OrbitChainData)
deriving Repr, DecidableEq

/-- The mutable state of the `ChainLookupService` singleton:
`this.chainsData` and `this.lastFetched` (milliseconds). -/
structure CacheState where
  chainsData : List OrbitChainData
  lastFetched : Nat
deriving Repr, DecidableEq

/-- `CACHE_TTL = 5 * 60 * 1000` milliseconds. -/
def CACHE_TTL : Nat := 5 * 60 * 1000

/-- `fetchChainsData` (`src/services/chain-lookup.ts` lines 155-176).
The axios GET (including JSON-shape failure) is modelled by the
`response` parameter: `.ok doc` is a successful fetch/parse, `.error` any
failure.  `coreChains` models `getCoreArbitrumChains()` (which catches
its own errors and degrades to an empty list), `now` models `Date.now()`.
Returns the resulting cache state together with the call's outcome; on
failure the state is the input state and the thrown error is
`Unable to fetch chains data`. -/
def fetchChainsData (st : CacheState) (response : Except String RemoteChainsDoc)
    (coreChains : List OrbitChainData) (now : Nat) :
    CacheState × Except String Unit :=
  match response with
  | .error _ => (st, .error "Unable to fetch chains data")
  | .ok data =>
    let orbitChains := data.mainnet.getD [] ++ data.testnet.getD []
    ({ chainsData := coreChains ++ orbitChains, lastFetched := now }, .ok ())

/-- `ensureChainsData` (lines 178-182): refetch when the snapshot is empty
or older than the TTL.  The returned `Bool` records whether a network
fetch was performed. -/
def ensureChainsData (st : CacheState) (now : Nat)
    (response : Except String RemoteChainsDoc)
    (coreChains : List OrbitChainData) :
    CacheState × Bool × Except String Unit :=
  if st.chainsData.length = 0 ∨ now - st.lastFetched > CACHE_TTL then
    let fetched := fetchChainsData st response coreChains now
    (fetched.1, true, fetched.2)
  else
    (st, false, .ok ())

/-- Tier-1 predicate of `findChainByName`: case-insensitive exact display
name equality with the normalized query. -/
def exactNameMatches (searchName : String) (chain : OrbitChainData) : Bool :=
  strToLower chain.name == searchName

/-- Tier-2 predicate: case-insensitive exact slug equality
(`chain.slug?.toLowerCase() === searchName`; a missing slug never matches). -/
def slugMatches (searchName : String) (chain : OrbitChainData) : Bool :=
  match chain.slug with
  | some sl => strToLower sl == searchName
  | none => false

/-- Tier-3 predicate: case-insensitive substring containment in either
direction between catalog name and query. -/
def partialNameMatches (searchName : String) (chain : OrbitChainData) : Bool :=
  jsIncludes (strToLower chain.name) searchName ||
    jsIncludes searchName (strToLower chain.name)

/-- `findChainByName` (lines 184-210), as a pure search over the
post-`ensureChainsData` snapshot: normalize the query with
`toLowerCase().trim()`, then try exact name, then slug, then partial
match, each with `Array.prototype.find` (first record in catalog order). -/
def findChainByName (chains : List OrbitChainData) (name : String) :
    Option OrbitChainData :=
  let searchName := strTrim (strToLower name)
  let chain := chains.find? (exactNameMatches searchName)
  let chain :=
    match chain with
    | some c => some c
    | none => chains.find? (slugMatches searchName)
  let chain :=
    match chain with
    | some c => some c
    | none => chains.find? (partialNameMatches searchName)
  chain

/-- `findChainById` (lines 212-217): first record with the given chain id. -/
def findChainById (chains : List OrbitChainData) (chainId : Nat) :
    Option OrbitChainData :=
  chains.find? (fun chain => chain.chainId == chainId)

/-- `searchChains` (lines 229-239): filter by lowercased-and-trimmed query
against name substring, slug substring, or exact decimal chain id. -/
def searchChains (chains : List OrbitChainData) (query : String) :
    List OrbitChainData :=
  let searchQuery := strTrim (strToLower query)
  chains.filter (fun chain =>
    jsIncludes (strToLower chain.name) searchQuery ||
    (match chain.slug with
     | some sl => jsIncludes (strToLower sl) searchQuery
     | none => false) ||
    (natStr chain.chainId == searchQuery))

/-- `resolveRpcUrl` (server entry point, lines 54-90): pass URLs through
verbatim, otherwise consult the lookup service (whose possible throw is
the `.error` case of `findChainByNameSvc`), and fall back to returning
the input string itself; with no usable input fall back to the default
RPC URL or throw.  JS truthiness makes an empty input (or empty default,
or a record with empty `rpcUrl`) falsy, which the model reflects. -/
def resolveRpcUrl (chainNameOrUrl : Option String)
    (findChainByNameSvc : String → Except String (Option OrbitChainData))
    (defaultRpcUrl : Option String) : Except String String :=
  let fallbackDefault : Except String String :=
    match defaultRpcUrl with
    | some d =>
      if d ≠ "" then .ok d
      else .error "No RPC URL or chain name provided and no default RPC URL configured. Please set a default RPC URL or provide a chain name/RPC URL in the request."
    | none => .error "No RPC URL or chain name provided and no default RPC URL configured. Please set a default RPC URL or provide a chain name/RPC URL in the request."
  match chainNameOrUrl with
  | some s =>
    if s ≠ "" then
      if jsStartsWith s "http://" || jsStartsWith s "https://" then .ok s
      else
        let looked : Option String :=
          match findChainByNameSvc s with
          | .ok (some chain) => if chain.rpcUrl ≠ "" then some chain.rpcUrl else none
          | .ok none => none
          | .error _ => none
        match looked with
        | some url => .ok url
        | none => .ok s
    else fallbackDefault
  | none => fallbackDefault

/-- Batch-posting sub-report (`BatchPostingStatus` in
`src/clients/arbitrum-chain-client.ts`); `lastBatchPostedSecondsAgo` is a
JS number holding an integer. -/
structure BatchPostingStatus where
  lastBatchPostedSecondsAgo : Int
  lastBlockReported : String
  latestChildChainBlockNumber : String
  backlogSize : String
  summary : String
deriving Repr, DecidableEq

/-- Assertion sub-report (`AssertionStatus`). -/
structure AssertionStatus where
  latestCreatedAssertion : Option String
  latestConfirmedAssertion : Option String
  creationConfirmationGap : String
  summary : String
deriving Repr, DecidableEq

/-- Gas sub-report (`GasStatus`). -/
structure GasStatus where
  currentGasPrice : String
  currentGasPriceGwei : String
  summary : String
deriving Repr, DecidableEq

/-- Composite report (`ChainStatus`): version first, then batch posting,
assertions and gas, exactly the field shape of the TS interface. -/
structure ChainStatus where
  chainName : String
  arbosVersion : String
  batchPosting : BatchPostingStatus
  assertions : AssertionStatus
  gasStatus : GasStatus
deriving Repr, DecidableEq

/-- One upstream request issued by the batch-posting sub-query, recorded in
order so that theorems can speak about which queries a run performs. -/
inductive ParentChainQuery where
  | getBlockNumber
  | getLogs (fromBlock toBlock : Int)
  | getBlock (blockNumber : Int)
  | readSubMessageCount
  | childBlockNumber
deriving Repr, DecidableEq

/-- A decoded `SequencerBatchDelivered` log; only its block number is read. -/
structure SequencerBatchLog where
  blockNumber : Int
deriving Repr, DecidableEq, Inhabited

/-- The upstream world seen by one `getBatchPostingStatus` run: each field
models one awaited network call (`.error` is a throw/reject carrying the
JS error message), `nowSeconds` models `Math.floor(Date.now() / 1000)`. -/
structure BatchEnv where
  latestParentBlock : Except String Int
  sequencerLogs : Int → Int → Except String (List SequencerBatchLog)
  blockTimestamp : Int → Except String Int
  subMessageCount : Except String Int
  childLatestBlock : Except String Int
  nowSeconds : Int

/-- The catch-branch report of `getBatchPostingStatus` (lines 156-164). -/
def batchPostingError (e : String) : BatchPostingStatus :=
  { lastBatchPostedSecondsAgo := 999999
    lastBlockReported := "0"
    latestChildChainBlockNumber := "0"
    backlogSize := "0"
    summary := "Error checking batch posting: " ++ e }

/-- `getBatchPostingStatus` (lines 75-165): look up the latest parent-chain
block, scan the last 10000 blocks for `SequencerBatchDelivered` logs at
the sequencer inbox, and either report the no-batches sentinel, or read
the most recent log's block timestamp, the bridge's
`sequencerReportedSubMessageCount` and the child chain's block height to
build the full report.  Any throw is caught and converted into the error
report.  The returned list records the upstream queries issued, in order. -/
def getBatchPostingStatus (env : BatchEnv) :
    BatchPostingStatus × List ParentChainQuery :=
  match env.latestParentBlock with
  | .error e => (batchPostingError e, [.getBlockNumber])
  | .ok latestBlockNumber =>
    let fromBlock := latestBlockNumber - 10000
    let trace0 : List ParentChainQuery :=
      [.getBlockNumber, .getLogs fromBlock latestBlockNumber]
    match env.sequencerLogs fromBlock latestBlockNumber with
    | .error e => (batchPostingError e, trace0)
    | .ok logs =>
      if logs.length = 0 then
        ({ lastBatchPostedSecondsAgo := 999999
           lastBlockReported := "0"
           latestChildChainBlockNumber := "0"
           backlogSize := "0"
           summary := "No batches found in recent blocks" }, trace0)
      else
        let lastLog := logs.getD (logs.length - 1) default
        let trace1 := trace0 ++ [.getBlock lastLog.blockNumber]
        match env.blockTimestamp lastLog.blockNumber with
        | .error e => (batchPostingError e, trace1)
        | .ok ts =>
          let lastBatchPostedSecondsAgo := env.nowSeconds - ts
          let trace2 := trace1 ++ [.readSubMessageCount]
          match env.subMessageCount with
          | .error e => (batchPostingError e, trace2)
          | .ok lastBlockReported =>
            let trace3 := trace2 ++ [.childBlockNumber]
            match env.childLatestBlock with
            | .error e => (batchPostingError e, trace3)
            | .ok latestChildChainBlockNumber =>
              let backlogSize := latestChildChainBlockNumber - lastBlockReported
              let hoursAgo := Int.fdiv lastBatchPostedSecondsAgo 3600
              let minutesAgo := Int.fdiv (Int.tmod lastBatchPostedSecondsAgo 3600) 60
              ({ lastBatchPostedSecondsAgo := lastBatchPostedSecondsAgo
                 lastBlockReported := intStr lastBlockReported
                 latestChildChainBlockNumber := intStr latestChildChainBlockNumber
                 backlogSize := intStr backlogSize
                 summary := "Last batch posted " ++ intStr hoursAgo ++ "h " ++
                   intStr minutesAgo ++ "m ago. Backlog: " ++ intStr backlogSize ++
                   " blocks." }, trace3)

/-- JS `x || null` applied to a decoded `nodeNum` that may be `undefined`
(missing `args`) — note that a present but zero bigint is falsy and also
collapses to `null`. -/
def jsOrNull (v : Option Nat) : Option Nat :=
  match v with
  | some k => if k == 0 then none else some k
  | none => none

/-- `getAssertionStatus` (lines 167-245), success path, as a function of
the decoded `nodeNum` arguments of the `NodeCreated` and `NodeConfirmed`
logs returned by the two 50000-block scans at the rollup address (in scan
order; a `none` element is a log whose `args?.nodeNum` is undefined).
The catch branch of the TS function is the error report used by the
aggregator model below. -/
def getAssertionStatus (createdLogs confirmedLogs : List (Option Nat)) :
    AssertionStatus :=
  let latestCreatedRaw : Option Nat :=
    if createdLogs.length > 0 then
      jsOrNull (createdLogs.getD (createdLogs.length - 1) none)
    else none
  let latestConfirmedRaw : Option Nat :=
    if confirmedLogs.length > 0 then
      jsOrNull (confirmedLogs.getD (confirmedLogs.length - 1) none)
    else none
  let creationConfirmationGap : Int :=
    match latestCreatedRaw, latestConfirmedRaw with
    | some c, some f => (c : Int) - (f : Int)
    | _, _ => 0
  let createdText :=
    match latestCreatedRaw with
    | some k => natStr k
    | none => "None"
  let confirmedText :=
    match latestConfirmedRaw with
    | some k => natStr k
    | none => "None"
  { latestCreatedAssertion := latestCreatedRaw.map natStr
    latestConfirmedAssertion := latestConfirmedRaw.map natStr
    creationConfirmationGap := intStr creationConfirmationGap
    summary := "Latest created assertion: " ++ createdText ++
      ", Latest confirmed: " ++ confirmedText ++ ". Gap: " ++
      intStr creationConfirmationGap }

/-- `getComprehensiveChainStatus` (lines 268-321): the four sub-queries are
joined with `Promise.allSettled`; each parameter is the settled outcome of
one sub-query (`.error` a rejection carrying its reason).  A rejected
branch is replaced by its error-flavored sub-report and the composite is
always returned — the function is total. -/
def getComprehensiveChainStatus (chainName : String)
    (versionResult : Except String String)
    (batchResult : Except String BatchPostingStatus)
    (assertionResult : Except String AssertionStatus)
    (gasResult : Except String GasStatus) : ChainStatus :=
  let arbosVersion :=
    match versionResult with
    | .ok v => v
    | .error _ => "Error retrieving ArbOS version"
  let batchPosting :=
    match batchResult with
    | .ok v => v
    | .error _ =>
      { lastBatchPostedSecondsAgo := 999999
        lastBlockReported := "0"
        latestChildChainBlockNumber := "0"
        backlogSize := "0"
        summary := "Error retrieving batch posting status" }
  let assertions :=
    match assertionResult with
    | .ok v => v
    | .error _ =>
      { latestCreatedAssertion := none
        latestConfirmedAssertion := none
        creationConfirmationGap := "0"
        summary := "Error retrieving assertion status" }
  let gasStatus :=
    match gasResult with
    | .ok v => v
    | .error _ =>
      { currentGasPrice := "0"
        currentGasPriceGwei := "0"
        summary := "Error retrieving gas status" }
  { chainName := chainName
    arbosVersion := arbosVersion
    batchPosting := batchPosting
    assertions := assertions
    gasStatus := gasStatus }

/-- Round `num / den` to the nearest integer, ties to even. -/
def rne (num den : Nat) : Nat :=
  let q := num / den
  let r := num % den
  if 2 * r > den ∨ (2 * r = den ∧ q % 2 = 1) then q + 1 else q

/-- Scaling exponent used to compute the floor of a fraction's base-2
logarithm; large enough for every value this code produces (every
denominator stays below `2 ^ 113`). -/
def flScale : Nat := 200

/-- A non-negative fraction with explicit numerator and denominator (not
necessarily reduced); the exact-value representation of the JS doubles
this code manipulates.  Exact integer arithmetic keeps every operation
kernel-computable. -/
structure Frac where
  num : Nat
  den : Nat
deriving Repr, DecidableEq

/-- Exact value of rounding a non-negative fraction to IEEE binary64
(round to nearest, ties to even), in the normal finite range; the model
of JS `Number` conversion and of correctly rounded JS division results.
Zero maps to zero.  The result is value-determined: the computed exponent
is the floor base-2 logarithm of the value and the mantissa its 53-bit
nearest-even rounding. -/
def flFrac (q : Frac) : Frac :=
  let a := q.num
  let b := q.den
  if a = 0 then ⟨0, 1⟩
  else
    let L := natLog2 ((a <<< flScale) / b)
    if flScale + 52 ≤ L then
      let t := L - (flScale + 52)
      ⟨(rne a (b <<< t)) <<< t, 1⟩
    else
      let u := (flScale + 52) - L
      ⟨rne (a <<< u) b, 1 <<< u⟩

/-- Absolute difference of two naturals. -/
def natDist (a b : Nat) : Nat := max a b - min a b

/-- Does the real number `s * g` round (binary64, nearest-even) back to
the integer double `xi`?  This is ECMA-262's round-trip condition
`the Number value for s x 10^(n-k) is x` for integral doubles. -/
def rtOK (xi s g : Nat) : Bool :=
  let r := flFrac ⟨s * g, 1⟩
  r.num == xi * r.den

/-- Candidate significands with exactly `k` digits for rendering the
integer double `xi` with magnitude exponent `n`: the nearest multiples of
`10 ^ (n - k)` (a window wide enough to contain every round-tripping
significand at the minimal `k`), filtered by the digit-count bound and
the round-trip condition. -/
def ecmaCandidatesAt (xi k n : Nat) : List (Nat × Nat) :=
  if n < k then []
  else
    let g := 10 ^ (n - k)
    let s0 := rne xi g
    (List.range 19).filterMap (fun i =>
      let s := s0 + i - 9
      if decide (10 ^ (k - 1) ≤ s) && decide (s < 10 ^ k) && rtOK xi s g
      then some (s, n) else none)

/-- All `k`-digit candidates across the possible magnitudes of `xi`. -/
def ecmaCandidates (xi k : Nat) : List (Nat × Nat) :=
  let d := (natDigits xi).length
  ecmaCandidatesAt xi k (d - 1) ++ ecmaCandidatesAt xi k d ++
    ecmaCandidatesAt xi k (d + 1)

/-- ECMA-262 preference among same-`k` candidates: the significand whose
value `s * 10 ^ (n - k)` is closest to `xi`, with ties going to the even
significand. -/
def betterCand (xi k : Nat) (a b : Nat × Nat) : Bool :=
  let da := natDist (a.1 * 10 ^ (a.2 - k)) xi
  let db := natDist (b.1 * 10 ^ (b.2 - k)) xi
  da < db || (da == db && a.1 % 2 == 0)

/-- Select the preferred candidate of a list. -/
def pickBest (xi k : Nat) : List (Nat × Nat) → Option (Nat × Nat)
  | [] => none
  | c :: rest =>
    match pickBest xi k rest with
    | none => some c
    | some b => if betterCand xi k c b then some c else some b

/-- Search for the smallest digit count `k` admitting a round-tripping
significand, per ECMA-262 Number::toString (17 digits always suffice for
a binary64; the step bound only makes the search structural). -/
def kSearchFrom (xi : Nat) : Nat → Nat → Option (Nat × Nat × Nat)
  | 0, _ => none
  | steps + 1, k =>
    match pickBest xi k (ecmaCandidates xi k) with
    | some (s, n) => some (k, s, n)
    | none => kSearchFrom xi steps (k + 1)

/-- ECMA-262 `Number::toString` (base 10) for a non-negative integral
double: the shortest decimal significand `s` with `k` digits such that
`s * 10 ^ (n - k)` rounds back to the value, rendered plainly when
`n <= 21` and in exponential notation (`d.ddd e+ (n-1)`) otherwise —
the notation JS switches to at `10 ^ 21`, which `toFixed` falls back to. -/
def ecmaToString (xi : Nat) : String :=
  if xi = 0 then "0"
  else
    match kSearchFrom xi 25 1 with
    | none => natStr xi
    | some (k, s, n) =>
      let ds := natDigits s
      if n ≤ 21 then ⟨ds ++ List.replicate (n - k) '0'⟩
      else if k = 1 then ⟨ds ++ 'e' :: '+' :: natDigits (n - 1)⟩
      else ⟨ds.take 1 ++ '.' :: ds.drop 1 ++ 'e' :: '+' :: natDigits (n - 1)⟩

/-- Decimal digits of `k` left-padded with zeros to width 6 (the
fractional part emitted by `toFixed(6)`). -/
def pad6 (k : Nat) : List Char :=
  let ds := natDigits k
  List.replicate (6 - ds.length) '0' ++ ds

/-- JS `Number.prototype.toFixed(6)` on a non-negative double given as an
exact fraction, per ECMA-262: when the value is at least `10 ^ 21` the
result is `ToString` of the value (exponential notation — an integral
double in that range), otherwise the closest multiple of `10 ^ -6`, ties
rounded up, written with exactly six fractional digits. -/
def toFixed6 (v : Frac) : String :=
  if 10 ^ 21 * v.den ≤ v.num then ecmaToString (v.num / v.den)
  else
    let n : Nat := (2 * v.num * 1000000 + v.den) / (2 * v.den)
    ⟨(natDigits (n / 1000000)) ++ '.' :: pad6 (n % 1000000)⟩

/-- List-level body of `jsStripZeroSuffix`: remove a maximal non-empty run
of trailing zero characters together with a decimal point immediately
preceding it; a list without trailing zeros is unchanged. -/
def jsStripList (l : List Char) : List Char :=
  let r := l.reverse
  let r1 := r.dropWhile (fun c => c == '0')
  if r1.length = r.length then l
  else if r1.head? = some '.' then r1.tail.reverse
  else r1.reverse

/-- JS `s.replace(/\x2e?0+$/, "")` on the formatted balance string. -/
def jsStripZeroSuffix (s : String) : String := ⟨jsStripList s.data⟩

/-- `getBalanceInEther` (`src/clients/nitro-node-client.ts` lines 568-580)
as a function of the wei balance: exact `BigInt` quotient when the value
divides evenly by `10 ^ 18`, otherwise `Number(wei) / 1e18` (`1e18` is
exactly representable, so the conversion and the correctly rounded
division are the two `flFrac` roundings) rendered with `toFixed(6)` and
stripped of trailing zeros. -/
def getBalanceInEther (wei : Nat) : String :=
  let ether := wei / (10 ^ 18)
  let remainder := wei % (10 ^ 18)
  if remainder = 0 then natStr ether
  else
    let numberWei := flFrac ⟨wei, 1⟩
    let etherDecimal := flFrac ⟨numberWei.num, numberWei.den * 10 ^ 18⟩
    jsStripZeroSuffix (toFixed6 etherDecimal)

/-- Specification-side view of settling one `Promise.allSettled` branch:
the fulfilled value, or the given error-flavored fallback. -/
def settledOr {α : Type} (r : Except String α) (fallback : α) : α :=
  match r with
  | .ok v => v
  | .error _ => fallback

/-- Specification-side view of the assertion sub-query's "most recent node
number": the decoded `nodeNum` of the last log when it is present and
nonzero, otherwise nothing. -/
def specLatestNode (logs : List (Option Nat)) : Option Nat :=
  match logs.getLast? with
  | some (some k) => if k = 0 then none else some k
  | _ => none

/-- Render an optional node number for the assertion summary. -/
def specNodeText (v : Option Nat) : String :=
  match v with
  | some k => natStr k
  | none => "None"

/-- Specification-side gap: the numeric difference when both sides are
carried, zero otherwise. -/
def specGap (c f : Option Nat) : Int :=
  match c, f with
  | some a, some b => (a : Int) - (b : Int)
  | _, _ => 0

/-- Containment of a query in a lowercased slug, when a slug is present. -/
def SlugHasSub (q : String) : Option String → Prop
  | some sl => q.data <:+: (strToLower sl).data
  | none => False

instance (q : String) : (o : Option String) → Decidable (SlugHasSub q o)
  | some sl => inferInstanceAs (Decidable (q.data <:+: (strToLower sl).data))
  | none => isFalse (fun h => h)

/-- Specification-side search predicate: the lowercased-and-trimmed query
is a substring of the lowercased display name, or of the lowercased slug
when one is present, or equals the decimal rendering of the chain id. -/
def SpecSearchMatch (query : String) (chain : OrbitChainData) : Prop :=
  (strTrim (strToLower query)).data <:+: (strToLower chain.name).data ∨
  SlugHasSub (strTrim (strToLower query)) chain.slug ∨
  natStr chain.chainId = strTrim (strToLower query)

instance (query : String) (chain : OrbitChainData) :
    Decidable (SpecSearchMatch query chain) :=
  inferInstanceAs (Decidable (_ ∨ _ ∨ _))

/-- The characters strictly after the first decimal point, when there is
one. -/
def fracAfterDot : List Char → Option (List Char)
  | [] => none
  | c :: rest => if c = '.' then some rest else fracAfterDot rest

/-- Shape of an optional fractional block: absent, or a non-empty run of
at most six characters that does not end in a zero and contains no
point. -/
def decShapeAux : Option (List Char) → Prop
  | none => True
  | some f => f ≠ [] ∧ f.length ≤ 6 ∧ f.getLast? ≠ some '0' ∧ '.' ∉ f

instance : (o : Option (List Char)) → Decidable (decShapeAux o)
  | none => isTrue trivial
  | some _ => inferInstanceAs (Decidable (_ ∧ _ ∧ _ ∧ _))

/-- Shape demanded of a formatted ether balance with a fractional part
stripped of trailing zeros: either no decimal point at all, or a
non-empty run of at most six fractional characters that does not end in a
zero and contains no further point. -/
def decimalShapeList (l : List Char) : Prop := decShapeAux (fracAfterDot l)

instance (l : List Char) : Decidable (decimalShapeList l) :=
  inferInstanceAs (Decidable (decShapeAux (fracAfterDot l)))

/-- String-level decimal shape. -/
def decimalShape (s : String) : Prop := decimalShapeList s.data

instance (s : String) : Decidable (decimalShape s) :=
  inferInstanceAs (Decidable (decimalShapeList s.data))

/-- Concrete canonical record used by witnesses. -/
def arbOneSample : OrbitChainData :=
  { chainId := 42161
    name := "Arbitrum One"
    slug := some "arbitrum-one"
    rpcUrl := "https://arb1.arbitrum.io/rpc" }

/-- Second concrete record used by witnesses. -/
def xaiSample : OrbitChainData :=
  { chainId := 660279
    name := "Xai"
    slug := some "xai"
    rpcUrl := "https://xai-chain.net/rpc" }

/-- Concrete loaded cache state used by witnesses. -/
def sampleState : CacheState :=
  { chainsData := [arbOneSample], lastFetched := 0 }

/-- Concrete upstream world where the parent chain reports block 20000 and
the batch-log scan returns no logs. -/
def batchEnvNoLogs : BatchEnv :=
  { latestParentBlock := .ok 20000
    sequencerLogs := fun _ _ => .ok []
    blockTimestamp := fun _ => .error "unused"
    subMessageCount := .error "unused"
    childLatestBlock := .error "unused"
    nowSeconds := 1700000000 }

/-!
Theorems settling the claims.
-/

/-- C1: for every combination of settled outcomes of the four sub-queries,
including all of them rejecting, `getComprehensiveChainStatus` returns
(never raises — it is total) the composite with its five fields in the
fixed interface order, each rejected branch replaced by its error-flavored
sub-report: the 999999/"0" batch sentinels, null assertions with gap "0",
"0" gas values, and an error summary string. -/
theorem getComprehensiveChainStatus_settles :
    ∀ (chainName : String) (rv : Except String String)
      (rb : Except String BatchPostingStatus)
      (ra : Except String AssertionStatus) (rg : Except String GasStatus)
      (e1 e2 e3 e4 : String),
      getComprehensiveChainStatus chainName rv rb ra rg =
        { chainName := chainName
          arbosVersion := settledOr rv "Error retrieving ArbOS version"
          batchPosting := settledOr rb
            ⟨999999, "0", "0", "0", "Error retrieving batch posting status"⟩
          assertions := settledOr ra
            ⟨none, none, "0", "Error retrieving assertion status"⟩
          gasStatus := settledOr rg ⟨"0", "0", "Error retrieving gas status"⟩ } ∧
      getComprehensiveChainStatus chainName
          (.error e1) (.error e2) (.error e3) (.error e4) =
        ⟨chainName, "Error retrieving ArbOS version",
          ⟨999999, "0", "0", "0", "Error retrieving batch posting status"⟩,
          ⟨none, none, "0", "Error retrieving assertion status"⟩,
          ⟨"0", "0", "Error retrieving gas status"⟩⟩ := by
  intro chainName rv rb ra rg e1 e2 e3 e4
  constructor
  · cases rv <;> cases rb <;> cases ra <;> cases rg <;> rfl
  · rfl

/-- C4: when the remote fetch (or the parsing of its body) fails, the
`fetchChainsData` transition raises `Unable to fetch chains data` and
leaves both the chains snapshot and the last-fetched timestamp exactly as
they were — in particular a previous snapshot stays intact, and on a
first load (empty prior state) the cache stays empty while the error
propagates. -/
theorem fetchChainsData_failure_preserves_state :
    ∀ (st : CacheState) (e : String) (coreChains : List OrbitChainData) (now : Nat),
      (fetchChainsData st (.error e) coreChains now).1.chainsData = st.chainsData ∧
      (fetchChainsData st (.error e) coreChains now).1.lastFetched = st.lastFetched ∧
      (fetchChainsData st (.error e) coreChains now).2 =
        .error "Unable to fetch chains data" := by
  intro st e coreChains now
  exact ⟨rfl, rfl, rfl⟩

/-- C5 counterexample: a successful catalog load can produce an empty
snapshot (empty remote arrays, no core chains), and then a further
`ensureChainsData` call within the 5-minute TTL of the recorded timestamp
does perform a fetch — refuting the claim that after any successful load
every in-TTL call performs no network fetch. -/
theorem ensureChainsData_empty_snapshot_refetch_counterexample :
    (fetchChainsData ⟨[], 0⟩ (.ok ⟨some [], some []⟩) [] 1000).2 = .ok () ∧
    (fetchChainsData ⟨[], 0⟩ (.ok ⟨some [], some []⟩) [] 1000).1 =
      ⟨[], 1000⟩ ∧
    1400 - 1000 ≤ CACHE_TTL ∧
    (ensureChainsData ⟨[], 1000⟩ 1400 (.ok ⟨some [], some []⟩) []).2.1 = true := by
  refine ⟨rfl, rfl, by decide, by decide⟩

/-- C5 (amended): after a successful catalog load that produced a
non-empty snapshot, every `ensureChainsData` call whose invocation time is
within the 5-minute TTL of the recorded last-fetched timestamp performs no
network fetch and leaves the snapshot unchanged; hence two such calls in
sequence trigger no fetch at all (at most one fetch in total counting the
load itself). -/
theorem ensureChainsData_ttl_no_refetch :
    ∀ (st : CacheState) (now1 now2 : Nat)
      (r1 r2 : Except String RemoteChainsDoc)
      (c1 c2 : List OrbitChainData),
      st.chainsData ≠ [] →
      now1 - st.lastFetched ≤ CACHE_TTL →
      now2 - st.lastFetched ≤ CACHE_TTL →
      ensureChainsData st now1 r1 c1 = (st, false, .ok ()) ∧
      ensureChainsData (ensureChainsData st now1 r1 c1).1 now2 r2 c2 =
        (st, false, .ok ()) := by
  intro st now1 now2 r1 r2 c1 c2 h1 h2 h3
  have hlen : ¬ st.chainsData.length = 0 := by
    simpa [List.length_eq_zero] using h1
  have e1 : ensureChainsData st now1 r1 c1 = (st, false, .ok ()) := by
    unfold ensureChainsData
    rw [if_neg]
    push_neg
    exact ⟨hlen, Nat.not_lt.mp (fun hlt => absurd h2 (Nat.not_le.mpr hlt)) ⟩
  have e2 : ensureChainsData st now2 r2 c2 = (st, false, .ok ()) := by
    unfold ensureChainsData
    rw [if_neg]
    push_neg
    exact ⟨hlen, Nat.not_lt.mp (fun hlt => absurd h3 (Nat.not_le.mpr hlt))⟩
  refine ⟨e1, ?_⟩
  rw [e1]
  exact e2

/-- C5 witness: a concrete non-empty snapshot and two in-TTL calls. -/
theorem ensureChainsData_ttl_no_refetch_witness :
    sampleState.chainsData ≠ [] ∧
    1000 - sampleState.lastFetched ≤ CACHE_TTL ∧
    200000 - sampleState.lastFetched ≤ CACHE_TTL ∧
    (ensureChainsData sampleState 1000 (.ok ⟨none, none⟩) [] =
        (sampleState, false, .ok ()) ∧
      ensureChainsData (ensureChainsData sampleState 1000 (.ok ⟨none, none⟩) []).1
          200000 (.ok ⟨none, none⟩) [] = (sampleState, false, .ok ())) :=
  ⟨by decide, by decide, by decide,
    ensureChainsData_ttl_no_refetch sampleState 1000 200000
      (.ok ⟨none, none⟩) (.ok ⟨none, none⟩) [] []
      (by decide) (by decide) (by decide)⟩

/-- C6: whenever the parent chain reports latest block `latest` and the
log scan over exactly the window from `latest - 10000` to `latest` at the
sequencer-inbox address returns zero logs, `getBatchPostingStatus` returns
the sentinel report (999999 seconds ago, "0" last block, "0" child block,
"0" backlog, a no-batches summary) without failing, and its recorded
upstream queries are exactly the block-number lookup and that one scan —
no bridge-counter read and no child-chain block query. -/
theorem getBatchPostingStatus_no_logs_sentinel :
    ∀ (env : BatchEnv) (latest : Int),
      env.latestParentBlock = .ok latest →
      env.sequencerLogs (latest - 10000) latest = .ok [] →
      getBatchPostingStatus env =
        ({ lastBatchPostedSecondsAgo := 999999
           lastBlockReported := "0"
           latestChildChainBlockNumber := "0"
           backlogSize := "0"
           summary := "No batches found in recent blocks" },
         [.getBlockNumber, .getLogs (latest - 10000) latest]) := by
  intro env latest h1 h2
  simp [getBatchPostingStatus, h1, h2]

/-- C6 witness: the concrete no-logs world. -/
theorem getBatchPostingStatus_no_logs_sentinel_witness :
    batchEnvNoLogs.latestParentBlock = .ok 20000 ∧
    batchEnvNoLogs.sequencerLogs (20000 - 10000) 20000 = .ok [] ∧
    getBatchPostingStatus batchEnvNoLogs =
      ({ lastBatchPostedSecondsAgo := 999999
         lastBlockReported := "0"
         latestChildChainBlockNumber := "0"
         backlogSize := "0"
         summary := "No batches found in recent blocks" },
       [.getBlockNumber, .getLogs (20000 - 10000) 20000]) :=
  ⟨rfl, rfl, getBatchPostingStatus_no_logs_sentinel batchEnvNoLogs 20000 rfl rfl⟩

/-- C3: `findChainByName` applies its matching tiers in strict precedence
over the snapshot: the case-insensitive exact-name search is consulted
first, the exact-slug search only when no record matches the first, the
bidirectional substring search only when both fail, each tier returning
the first record in catalog order (`List.find?`); in particular whenever
an exact-name match exists the result is that first exact-name match,
never a slug-only or substring-only match. -/
theorem findChainByName_tier_precedence :
    ∀ (chains : List OrbitChainData) (name : String),
      findChainByName chains name =
        (if (chains.find? (exactNameMatches (strTrim (strToLower name)))).isSome then
          chains.find? (exactNameMatches (strTrim (strToLower name)))
        else if (chains.find? (slugMatches (strTrim (strToLower name)))).isSome then
          chains.find? (slugMatches (strTrim (strToLower name)))
        else
          chains.find? (partialNameMatches (strTrim (strToLower name)))) := by
  intro chains name
  simp only [findChainByName]
  cases h1 : chains.find? (exactNameMatches (strTrim (strToLower name))) <;>
    cases h2 : chains.find? (slugMatches (strTrim (strToLower name))) <;>
      simp [h1, h2]

/-- C2 counterexample: the empty string matches no catalog record as far
as the resolver is concerned (JS truthiness skips the lookup entirely),
yet `resolveRpcUrl` does not return it back as a literal RPC URL — with
no default configured it raises instead, refuting the unrestricted
"returns the original input string rather than raising" reading. -/
theorem resolveRpcUrl_empty_string_counterexample :
    resolveRpcUrl (some "") (fun _ => .error "catalog fetch failed") none ≠
      .ok "" ∧
    resolveRpcUrl (some "") (fun _ => .error "catalog fetch failed") none =
      .error "No RPC URL or chain name provided and no default RPC URL configured. Please set a default RPC URL or provide a chain name/RPC URL in the request." := by
  constructor
  · intro hc
    exact Except.noConfusion hc
  · rfl

/-- C2 (amended): for every input starting with an http/https scheme the
resolver returns the input verbatim without consulting the catalog (the
result is identical under any two lookup functions); and for every
NON-EMPTY input that is not a URL and whose catalog lookup errors or
matches no record, the original string is returned as a literal RPC URL
rather than raising.  (The empty string is falsy in JS and instead falls
through to the default-URL-or-error branch.) -/
theorem resolveRpcUrl_identity_outside_catalog :
    ∀ (u s e : String)
      (lookup lookup2 : String → Except String (Option OrbitChainData))
      (defaultRpcUrl : Option String),
      (jsStartsWith u "http://" = true ∨ jsStartsWith u "https://" = true) →
      s ≠ "" →
      jsStartsWith s "http://" = false →
      jsStartsWith s "https://" = false →
      (lookup s = .error e ∨ lookup s = .ok none) →
      resolveRpcUrl (some u) lookup defaultRpcUrl = .ok u ∧
      resolveRpcUrl (some u) lookup defaultRpcUrl =
        resolveRpcUrl (some u) lookup2 defaultRpcUrl ∧
      resolveRpcUrl (some s) lookup defaultRpcUrl = .ok s := by
  intro u s e lookup lookup2 d hu hs0 hs1 hs2 hl
  have hune : u ≠ "" := by
    intro h
    subst h
    rcases hu with h | h
    · exact absurd h (by decide)
    · exact absurd h (by decide)
  have hok : resolveRpcUrl (some u) lookup d = .ok u := by
    rcases hu with h | h <;> simp [resolveRpcUrl, hune, h]
  have hok2 : resolveRpcUrl (some u) lookup2 d = .ok u := by
    rcases hu with h | h <;> simp [resolveRpcUrl, hune, h]
  have hfall : resolveRpcUrl (some s) lookup d = .ok s := by
    rcases hl with h | h <;> simp [resolveRpcUrl, hs0, hs1, hs2, h]
  exact ⟨hok, by rw [hok, hok2], hfall⟩

/-- C2 witness: a concrete URL and a concrete unknown chain name. -/
theorem resolveRpcUrl_identity_outside_catalog_witness :
    (jsStartsWith "https://example.com/rpc" "http://" = true ∨
      jsStartsWith "https://example.com/rpc" "https://" = true) ∧
    ("totally-unknown-chain-xyz" : String) ≠ "" ∧
    jsStartsWith "totally-unknown-chain-xyz" "http://" = false ∧
    jsStartsWith "totally-unknown-chain-xyz" "https://" = false ∧
    ((fun _ : String =>
        (Except.ok none : Except String (Option OrbitChainData)))
          "totally-unknown-chain-xyz" = .error "x" ∨
      (fun _ : String =>
        (Except.ok none : Except String (Option OrbitChainData)))
          "totally-unknown-chain-xyz" = .ok none) ∧
    (resolveRpcUrl (some "https://example.com/rpc") (fun _ => .ok none) none =
        .ok "https://example.com/rpc" ∧
      resolveRpcUrl (some "https://example.com/rpc") (fun _ => .ok none) none =
        resolveRpcUrl (some "https://example.com/rpc")
          (fun _ => .error "y") none ∧
      resolveRpcUrl (some "totally-unknown-chain-xyz")
          (fun _ => .ok none) none = .ok "totally-unknown-chain-xyz") :=
  ⟨Or.inr (by decide), by decide, by decide, by decide, Or.inr rfl,
    resolveRpcUrl_identity_outside_catalog
      "https://example.com/rpc" "totally-unknown-chain-xyz" "x"
      (fun _ => .ok none) (fun _ => .error "y") none
      (Or.inr (by decide)) (by decide) (by decide) (by decide) (Or.inr rfl)⟩

/-- C7 counterexample: when the most recent node-created log exists but
decodes to node number zero (a perfectly possible genesis node), the
report carries `null` rather than that node number, and the summary
renders the existing side as "None" — the JS `|| null` coercion treats
the zero bigint as absent, refuting the claim that the node number is
carried whenever at least one log exists. -/
theorem getAssertionStatus_zero_node_counterexample :
    (getAssertionStatus [some 0] []).latestCreatedAssertion = none ∧
    (getAssertionStatus [some 0] []).latestCreatedAssertion ≠
      some (natStr 0) ∧
    (getAssertionStatus [some 0] []).summary =
      "Latest created assertion: None, Latest confirmed: None. Gap: 0" := by
  refine ⟨rfl, ?_, rfl⟩
  intro hc
  exact Option.noConfusion hc

/-- The sub-query's "latest node" computation over the raw log list equals
the specification-side view. -/
theorem latestRaw_eq_spec :
    ∀ logs : List (Option Nat),
      (if logs.length > 0 then jsOrNull (logs.getD (logs.length - 1) none)
        else none) = specLatestNode logs := by
  intro logs
  cases logs with
  | nil => rfl
  | cons a t =>
    have hpos : (a :: t).length > 0 := Nat.succ_pos _
    rw [if_pos hpos, List.getD_eq_getElem?_getD, ← List.getLast?_eq_getElem?]
    unfold specLatestNode
    cases h : (a :: t).getLast? with
    | none => rfl
    | some v =>
      cases v with
      | none => rfl
      | some k =>
        by_cases hk : k = 0
        · subst hk
          rfl
        · simp [jsOrNull, hk]

/-- C7 (amended): for every pair of decoded log lists, the assertion
sub-report carries the node number of the most recent log of each kind
when such a log exists AND its decoded node number is nonzero, and null
when no log exists, the last log's arguments are undecodable, or the node
number is zero (JS falsy coercion); the gap is the numeric difference
when both carried values are present and "0" otherwise; and the summary
always renders an absent (or zero) side as "None". -/
theorem getAssertionStatus_report_spec :
    ∀ (createdLogs confirmedLogs : List (Option Nat)),
      getAssertionStatus createdLogs confirmedLogs =
        { latestCreatedAssertion := (specLatestNode createdLogs).map natStr
          latestConfirmedAssertion := (specLatestNode confirmedLogs).map natStr
          creationConfirmationGap :=
            intStr (specGap (specLatestNode createdLogs)
              (specLatestNode confirmedLogs))
          summary := "Latest created assertion: " ++
            specNodeText (specLatestNode createdLogs) ++
            ", Latest confirmed: " ++
            specNodeText (specLatestNode confirmedLogs) ++ ". Gap: " ++
            intStr (specGap (specLatestNode createdLogs)
              (specLatestNode confirmedLogs)) } := by
  intro c f
  simp only [getAssertionStatus]
  rw [latestRaw_eq_spec c, latestRaw_eq_spec f]
  cases hc : specLatestNode c <;> cases hf : specLatestNode f <;>
    simp [specGap, specNodeText]

/-- In a list of records with pairwise distinct chain ids, the first
record found by chain id of a member is that member itself. -/
theorem find?_chainId_unique :
    ∀ (l : List OrbitChainData) (r : OrbitChainData),
      l.Pairwise (fun a b => a.chainId ≠ b.chainId) → r ∈ l →
      l.find? (fun c => c.chainId == r.chainId) = some r := by
  intro l r hp hm
  induction l with
  | nil => cases hm
  | cons a t ih =>
    rw [List.pairwise_cons] at hp
    rcases hp with ⟨ha, hp2⟩
    rcases List.mem_cons.mp hm with heq | hmt
    · subst heq
      rw [List.find?_cons_of_pos]
      simp
    · have hne : a.chainId ≠ r.chainId := ha r hmt
      rw [List.find?_cons_of_neg]
      · exact ih hp2 hmt
      · simp [hne]

/-- C8: in a snapshot produced by a successful load (canonical core chains
prepended to the remote mainnet and testnet entries), any record `r`
coming from the remote arrays is returned — with identical chain id, name
and RPC URL — by `findChainById` applied to `r`'s own chain id, provided
chain ids are unique in the loaded snapshot. -/
theorem findChainById_roundtrip :
    ∀ (st : CacheState) (doc : RemoteChainsDoc)
      (coreChains : List OrbitChainData) (now : Nat) (r : OrbitChainData),
      r ∈ doc.mainnet.getD [] ++ doc.testnet.getD [] →
      ((fetchChainsData st (.ok doc) coreChains now).1.chainsData).Pairwise
        (fun a b => a.chainId ≠ b.chainId) →
      ∃ found,
        findChainById (fetchChainsData st (.ok doc) coreChains now).1.chainsData
            r.chainId = some found ∧
          found.chainId = r.chainId ∧ found.name = r.name ∧
          found.rpcUrl = r.rpcUrl := by
  intro st doc coreChains now r hmem hpw
  have hm2 : r ∈ (fetchChainsData st (.ok doc) coreChains now).1.chainsData := by
    simp only [fetchChainsData]
    exact List.mem_append.mpr (Or.inr hmem)
  exact ⟨r, find?_chainId_unique _ r hpw hm2, rfl, rfl, rfl⟩

/-- C8 witness: a one-record remote document merged behind one core chain. -/
theorem findChainById_roundtrip_witness :
    xaiSample ∈
      (RemoteChainsDoc.mk (some [xaiSample]) none).mainnet.getD [] ++
        (RemoteChainsDoc.mk (some [xaiSample]) none).testnet.getD [] ∧
    ((fetchChainsData ⟨[], 0⟩ (.ok ⟨some [xaiSample], none⟩)
        [arbOneSample] 5).1.chainsData).Pairwise
      (fun a b => a.chainId ≠ b.chainId) ∧
    (∃ found,
      findChainById
          (fetchChainsData ⟨[], 0⟩ (.ok ⟨some [xaiSample], none⟩)
            [arbOneSample] 5).1.chainsData xaiSample.chainId = some found ∧
        found.chainId = xaiSample.chainId ∧ found.name = xaiSample.name ∧
        found.rpcUrl = xaiSample.rpcUrl) :=
  ⟨by decide, by decide,
    findChainById_roundtrip ⟨[], 0⟩ ⟨some [xaiSample], none⟩ [arbOneSample] 5
      xaiSample (by decide) (by decide)⟩

/-- Boolean string equality agrees with decidable propositional equality. -/
theorem string_beq_eq_decide (a b : String) : (a == b) = decide (a = b) := by
  by_cases h : a = b <;> simp [h]

/-- C10: `searchChains` returns exactly the records, in catalog order,
whose display name contains the lowercased-and-trimmed query as a
case-insensitive substring, or whose slug (when present) contains it, or
whose chain id rendered in decimal equals it exactly — so the numeric
query "42161" finds Arbitrum One even though neither its name nor its
slug contains those digits. -/
theorem searchChains_filter_spec :
    ∀ (chains : List OrbitChainData) (query : String),
      searchChains chains query =
        chains.filter (fun chain => decide (SpecSearchMatch query chain)) ∧
      searchChains [arbOneSample, xaiSample] "42161" = [arbOneSample] := by
  intro chains query
  refine ⟨?_, by decide⟩
  simp only [searchChains]
  apply List.filter_congr
  intro c _
  rcases hsl : c.slug with _ | sl <;>
    simp [SpecSearchMatch, SlugHasSub, hsl, jsIncludes, Bool.or_assoc,
      string_beq_eq_decide]

/-- Every character produced by the fuel-driven digit accumulator is a
decimal digit. -/
theorem natDigitsAux_digits :
    ∀ (fuel n : Nat) (c : Char), c ∈ natDigitsAux fuel n → c.isDigit = true := by
  intro fuel
  induction fuel with
  | zero => intro n c hc; cases hc
  | succ f ih =>
    intro n c hc
    rw [natDigitsAux] at hc
    by_cases h : n < 10
    · rw [if_pos h] at hc
      rcases List.mem_singleton.mp hc with rfl
      interval_cases n <;> decide
    · rw [if_neg h] at hc
      rcases List.mem_append.mp hc with hl | hr
      · exact ih (n / 10) c hl
      · rcases List.mem_singleton.mp hr with rfl
        have hm : n % 10 < 10 := Nat.mod_lt _ (by omega)
        generalize n % 10 = m at hm
        interval_cases m <;> decide

/-- Every character of the decimal rendering is a digit. -/
theorem natDigits_digits (n : Nat) (c : Char) :
    c ∈ natDigits n → c.isDigit = true :=
  natDigitsAux_digits (n + 1) n c

/-- Digit-count bound for the fuel-driven accumulator. -/
theorem natDigitsAux_length_le :
    ∀ (fuel n m : Nat), n < 10 ^ (m + 1) →
      (natDigitsAux fuel n).length ≤ m + 1 := by
  intro fuel
  induction fuel with
  | zero => intro n m _; simp [natDigitsAux]
  | succ f ih =>
    intro n m h
    rw [natDigitsAux]
    by_cases h10 : n < 10
    · rw [if_pos h10]
      simp
    · rw [if_neg h10]
      rw [List.length_append]
      obtain ⟨m2, rfl⟩ : ∃ m2, m = m2 + 1 := by
        refine ⟨m - 1, ?_⟩
        rcases Nat.eq_zero_or_pos m with rfl | hm
        · exfalso
          rw [pow_one] at h
          omega
        · omega
      have hdiv : n / 10 < 10 ^ (m2 + 1) := by
        apply Nat.div_lt_of_lt_mul
        have hp : (10 : Nat) * 10 ^ (m2 + 1) = 10 ^ (m2 + 1 + 1) := by ring
        rw [hp]
        exact h
      have := ih (n / 10) m2 hdiv
      simp only [List.length_singleton]
      omega

/-- The padded fractional block has exactly six characters. -/
theorem pad6_length (k : Nat) (h : k < 1000000) : (pad6 k).length = 6 := by
  unfold pad6
  rw [List.length_append, List.length_replicate]
  have hle : (natDigits k).length ≤ 6 := by
    have : k < 10 ^ (5 + 1) := by norm_num at h ⊢; omega
    exact natDigitsAux_length_le (k + 1) k 5 this
  omega

/-- Every character of the padded fractional block is a digit. -/
theorem pad6_digits (k : Nat) (c : Char) : c ∈ pad6 k → c.isDigit = true := by
  intro hc
  unfold pad6 at hc
  rcases List.mem_append.mp hc with hl | hr
  · rcases List.eq_of_mem_replicate hl with rfl
    decide
  · exact natDigits_digits k c hr

/-- A decimal digit is not the decimal point. -/
theorem digit_ne_dot (c : Char) (h : c.isDigit = true) : c ≠ '.' := by
  intro heq
  subst heq
  exact absurd h (by decide)

/-- Dropping a prefix satisfying `p` from an appended list, split by where
the drop stops. -/
theorem dropWhile_append_eval (p : Char → Bool) (l1 l2 : List Char) :
    (l1 ++ l2).dropWhile p =
      if (l1.dropWhile p).isEmpty then l2.dropWhile p
      else l1.dropWhile p ++ l2 := by
  induction l1 with
  | nil => simp
  | cons a t ih =>
    by_cases h : p a
    · simp only [List.cons_append, List.dropWhile_cons, h, if_true, ih]
    · simp [List.dropWhile_cons, h]

/-- The first element surviving a `dropWhile` fails the predicate. -/
theorem dropWhile_head_false (p : Char → Bool) :
    ∀ (l : List Char) (c : Char) (t2 : List Char),
      l.dropWhile p = c :: t2 → p c = false := by
  intro l
  induction l with
  | nil => intro c t2 h; cases h
  | cons a t ih =>
    intro c t2 h
    rw [List.dropWhile_cons] at h
    by_cases ha : p a
    · rw [if_pos ha] at h
      exact ih c t2 h
    · rw [if_neg ha] at h
      cases h
      exact Bool.eq_false_iff.mpr ha

/-- A `dropWhile` that preserves the length drops nothing. -/
theorem dropWhile_length_eq_self (p : Char → Bool) :
    ∀ l : List Char, (l.dropWhile p).length = l.length → l.dropWhile p = l := by
  intro l
  induction l with
  | nil => intro _; rfl
  | cons a t ih =>
    intro h
    rw [List.dropWhile_cons] at h ⊢
    by_cases ha : p a
    · rw [if_pos ha] at h ⊢
      exfalso
      have hle : (t.dropWhile p).length ≤ t.length :=
        (List.dropWhile_sublist (l := t) p).length_le
      simp only [List.length_cons] at h
      omega
    · rw [if_neg ha]

/-- A dot-free list has no fractional part. -/
theorem fracAfterDot_no_dot :
    ∀ l : List Char, (∀ c ∈ l, c ≠ '.') → fracAfterDot l = none := by
  intro l
  induction l with
  | nil => intro _; rfl
  | cons a t ih =>
    intro h
    rw [fracAfterDot]
    rw [if_neg (h a (List.mem_cons_self a t))]
    exact ih fun c hc => h c (List.mem_cons_of_mem a hc)

/-- The fractional part of a dot-free integer block followed by a point is
everything after the point. -/
theorem fracAfterDot_append :
    ∀ (l f : List Char), (∀ c ∈ l, c ≠ '.') →
      fracAfterDot (l ++ '.' :: f) = some f := by
  intro l
  induction l with
  | nil => intro f _; simp [fracAfterDot]
  | cons a t ih =>
    intro f h
    rw [List.cons_append, fracAfterDot]
    rw [if_neg (h a (List.mem_cons_self a t))]
    exact ih f fun c hc => h c (List.mem_cons_of_mem a hc)

/-- Evaluation lemma for `jsStripList` given the computed dropped reverse. -/
theorem jsStripList_eval (l r1 : List Char)
    (h : l.reverse.dropWhile (fun c => c == '0') = r1) :
    jsStripList l =
      (if r1.length = l.reverse.length then l
       else if r1.head? = some '.' then r1.tail.reverse
       else r1.reverse) := by
  simp only [jsStripList]
  rw [h]

/-- Stripping trailing zeros from a digit block, a point and a six-digit
fractional block yields the decimal shape: no point at all, or one to six
fractional digits not ending in zero. -/
theorem strip_shape (I f6 : List Char)
    (hI : ∀ c ∈ I, c.isDigit = true)
    (hf : ∀ c ∈ f6, c.isDigit = true)
    (hlen : f6.length = 6) :
    decimalShapeList (jsStripList (I ++ '.' :: f6)) := by
  have hIdot : ∀ c ∈ I, c ≠ '.' := fun c hc => digit_ne_dot c (hI c hc)
  have hfdot : ∀ c ∈ f6, c ≠ '.' := fun c hc => digit_ne_dot c (hf c hc)
  have hrev : (I ++ '.' :: f6).reverse = f6.reverse ++ '.' :: I.reverse := by
    simp
  cases htc : f6.reverse.dropWhile (fun c => c == '0') with
  | nil =>
    have hr1 : (I ++ '.' :: f6).reverse.dropWhile (fun c => c == '0') =
        '.' :: I.reverse := by
      rw [hrev, dropWhile_append_eval, htc]
      simp [List.dropWhile_cons]
    rw [jsStripList_eval _ _ hr1]
    rw [if_neg (by
      simp only [List.length_cons, List.length_reverse, List.length_append,
        hlen]
      omega)]
    rw [if_pos (by simp), List.tail_cons, List.reverse_reverse]
    unfold decimalShapeList
    rw [fracAfterDot_no_dot I hIdot]
    trivial
  | cons c t2 =>
    have hsub := List.dropWhile_sublist (l := f6.reverse) (fun c => c == '0')
    rw [htc] at hsub
    have hcf : c ∈ f6 := by
      have hcm : c ∈ f6.reverse := hsub.subset (List.mem_cons_self c t2)
      exact List.mem_reverse.mp hcm
    have hc0 : (c == '0') = false := dropWhile_head_false _ f6.reverse c t2 htc
    have hcne0 : c ≠ '0' := by
      intro heq
      subst heq
      simp at hc0
    have hr1 : (I ++ '.' :: f6).reverse.dropWhile (fun c => c == '0') =
        (c :: t2) ++ '.' :: I.reverse := by
      rw [hrev, dropWhile_append_eval, htc]
      rfl
    rw [jsStripList_eval _ _ hr1]
    by_cases heq :
        ((c :: t2) ++ '.' :: I.reverse).length = (I ++ '.' :: f6).reverse.length
    · rw [if_pos heq]
      have hlen_eq : (f6.reverse.dropWhile (fun c => c == '0')).length =
          f6.reverse.length := by
        rw [htc]
        simp only [List.length_append, List.length_cons, List.length_reverse,
          hlen] at heq ⊢
        omega
      have hfull : f6.reverse.dropWhile (fun c => c == '0') = f6.reverse :=
        dropWhile_length_eq_self _ _ hlen_eq
      rw [htc] at hfull
      unfold decimalShapeList
      rw [fracAfterDot_append I f6 hIdot]
      refine ⟨?_, ?_, ?_, ?_⟩
      · intro hnil
        rw [hnil] at hlen
        simp at hlen
      · omega
      · have hgl : f6.getLast? = f6.reverse.head? := (List.head?_reverse f6).symm
        rw [hgl, ← hfull]
        simp only [List.head?_cons, ne_eq, Option.some.injEq]
        exact hcne0
      · intro hdot
        exact hfdot '.' hdot rfl
    · rw [if_neg heq]
      have hcdot : c ≠ '.' := digit_ne_dot c (hf c hcf)
      rw [if_neg (by
        rw [List.cons_append, List.head?_cons]
        simp [hcdot])]
      have hform : ((c :: t2) ++ '.' :: I.reverse).reverse =
          I ++ '.' :: (c :: t2).reverse := by
        simp
      rw [hform]
      unfold decimalShapeList
      rw [fracAfterDot_append I _ hIdot]
      refine ⟨?_, ?_, ?_, ?_⟩
      · simp
      · have hle : (c :: t2).length ≤ f6.reverse.length := hsub.length_le
        simp only [List.length_reverse] at hle ⊢
        omega
      · rw [List.getLast?_reverse]
        simp only [List.head?_cons, ne_eq, Option.some.injEq]
        exact hcne0
      · intro hdot
        have hdm : '.' ∈ (c :: t2) := List.mem_reverse.mp hdot
        have hdf : '.' ∈ f6 := List.mem_reverse.mp (hsub.subset hdm)
        exact hfdot '.' hdf rfl

/-- The fuel-driven base-2 logarithm brackets its argument when the fuel
suffices. -/
theorem log2Aux_spec :
    ∀ (fuel n : Nat), 1 ≤ n → n ≤ fuel →
      2 ^ (log2Aux fuel n) ≤ n ∧ n < 2 ^ (log2Aux fuel n + 1) := by
  intro fuel
  induction fuel with
  | zero => intro n h1 h2; omega
  | succ f ih =>
    intro n h1 h2
    simp only [log2Aux]
    by_cases h : n ≥ 2
    · rw [if_pos h]
      have hd1 : 1 ≤ n / 2 := (Nat.le_div_iff_mul_le (by norm_num)).mpr (by omega)
      have hdlt : n / 2 < n := Nat.div_lt_self (by omega) (by norm_num)
      have hd2 : n / 2 ≤ f := by omega
      obtain ⟨hl, hr⟩ := ih (n / 2) hd1 hd2
      have hdm := Nat.div_add_mod n 2
      have hmlt : n % 2 < 2 := Nat.mod_lt _ (by norm_num)
      constructor
      · have he : 2 ^ (log2Aux f (n / 2) + 1) = 2 * 2 ^ (log2Aux f (n / 2)) := by
          ring
        rw [he]
        omega
      · have he : 2 ^ (log2Aux f (n / 2) + 1 + 1) =
            2 * 2 ^ (log2Aux f (n / 2) + 1) := by
          ring
        rw [he]
        omega
    · rw [if_neg h]
      constructor
      · simpa using h1
      · have hn2 : n < 2 := by omega
        simpa using hn2

/-- Bracketing of `natLog2` on positive arguments. -/
theorem natLog2_spec (n : Nat) (h : 1 ≤ n) :
    2 ^ natLog2 n ≤ n ∧ n < 2 ^ (natLog2 n + 1) :=
  log2Aux_spec n n h le_rfl

/-- Nearest-even rounding overshoots the true quotient by at most one
grid step. -/
theorem rne_mul_le (a b : Nat) : rne a b * b ≤ a + b := by
  simp only [rne]
  have hdb := Nat.div_mul_le_self a b
  split_ifs with h
  · calc (a / b + 1) * b = a / b * b + b := by ring
      _ ≤ a + b := by omega
  · omega

/-- The rounding result always has a positive denominator. -/
theorem flFrac_den_pos (q : Frac) : 0 < (flFrac q).den := by
  simp only [flFrac]
  split_ifs <;> simp [Nat.shiftLeft_eq]

/-- Rounding to binary64 at most doubles a value bound: if the fraction is
at most `N`, the rounded fraction is at most `2 * N`. -/
theorem flFrac_le (q : Frac) (N : Nat) (hden : 0 < q.den) (hN : 1 ≤ N)
    (h : q.num ≤ N * q.den) :
    (flFrac q).num ≤ 2 * N * (flFrac q).den := by
  by_cases h0 : q.num = 0
  · simp [flFrac, h0]
  · have ha : 1 ≤ q.num := Nat.one_le_iff_ne_zero.mpr h0
    simp only [flFrac, h0, if_false]
    by_cases hbr : flScale + 52 ≤ natLog2 ((q.num <<< flScale) / q.den)
    · rw [if_pos hbr]
      set L := natLog2 ((q.num <<< flScale) / q.den) with hL
      set t := L - (flScale + 52) with htdef
      have hq1 : 1 ≤ (q.num <<< flScale) / q.den := by
        by_contra hc
        push_neg at hc
        have hz : (q.num <<< flScale) / q.den = 0 := Nat.lt_one_iff.mp hc
        have hL0 : L = 0 := by rw [hL, hz]; rfl
        have hpos : 0 < flScale + 52 := by norm_num [flScale]
        omega
      obtain ⟨hlo, hhi⟩ := natLog2_spec _ hq1
      have hlo2 : 2 ^ L * q.den ≤ q.num * 2 ^ flScale := by
        calc 2 ^ L * q.den ≤ ((q.num <<< flScale) / q.den) * q.den :=
              Nat.mul_le_mul_right _ hlo
          _ ≤ q.num <<< flScale := Nat.div_mul_le_self _ _
          _ = q.num * 2 ^ flScale := by rw [Nat.shiftLeft_eq]
      have hkey : 2 ^ (52 + t) * q.den ≤ q.num := by
        have hexp : L = flScale + (52 + t) := by omega
        rw [hexp, pow_add] at hlo2
        have h2 : 2 ^ flScale * (2 ^ (52 + t) * q.den) ≤ 2 ^ flScale * q.num := by
          calc 2 ^ flScale * (2 ^ (52 + t) * q.den)
              = 2 ^ flScale * 2 ^ (52 + t) * q.den := by ring
            _ ≤ q.num * 2 ^ flScale := hlo2
            _ = 2 ^ flScale * q.num := by ring
        exact Nat.le_of_mul_le_mul_left h2 (pow_pos (by norm_num) _)
      have hbt : q.den * 2 ^ t ≤ q.num := by
        calc q.den * 2 ^ t = 2 ^ t * q.den := by ring
          _ ≤ 2 ^ (52 + t) * q.den :=
              Nat.mul_le_mul_right _ (Nat.pow_le_pow_right (by norm_num) (by omega))
          _ ≤ q.num := hkey
      have hM : rne q.num (q.den <<< t) * (q.den <<< t) ≤ q.num + q.den <<< t :=
        rne_mul_le _ _
      rw [Nat.shiftLeft_eq] at hM
      simp only [Nat.shiftLeft_eq]
      have hcancel : rne q.num (q.den * 2 ^ t) * 2 ^ t * q.den ≤
          2 * N * q.den := by
        calc rne q.num (q.den * 2 ^ t) * 2 ^ t * q.den
            = rne q.num (q.den * 2 ^ t) * (q.den * 2 ^ t) := by ring
          _ ≤ q.num + q.den * 2 ^ t := hM
          _ ≤ q.num + q.num := by omega
          _ ≤ 2 * N * q.den := by
              have := h
              calc q.num + q.num ≤ N * q.den + N * q.den := by omega
                _ = 2 * N * q.den := by ring
      have hfin := Nat.le_of_mul_le_mul_right hcancel hden
      simpa using hfin
    · rw [if_neg hbr]
      set u := (flScale + 52) - natLog2 ((q.num <<< flScale) / q.den) with hu
      have hM : rne (q.num <<< u) q.den * q.den ≤ q.num <<< u + q.den :=
        rne_mul_le _ _
      rw [Nat.shiftLeft_eq] at hM
      simp only [Nat.shiftLeft_eq]
      have h2u : 1 ≤ 2 ^ u := Nat.one_le_two_pow
      have hb2 : q.den ≤ N * q.den * 2 ^ u := by
        calc q.den = 1 * q.den * 1 := by ring
          _ ≤ N * q.den * 2 ^ u :=
              Nat.mul_le_mul (Nat.mul_le_mul hN le_rfl) h2u
      have hstep : rne (q.num * 2 ^ u) q.den * q.den ≤
          2 * N * (1 * 2 ^ u) * q.den := by
        calc rne (q.num * 2 ^ u) q.den * q.den ≤ q.num * 2 ^ u + q.den := hM
          _ ≤ N * q.den * 2 ^ u + N * q.den * 2 ^ u := by
              have hx : q.num * 2 ^ u ≤ N * q.den * 2 ^ u :=
                Nat.mul_le_mul_right _ h
              omega
          _ = 2 * N * (1 * 2 ^ u) * q.den := by ring
      exact Nat.le_of_mul_le_mul_right hstep hden

/-- Under the wei bound, the modelled float quotient stays strictly below
the `10 ^ 21` exponential-rendering threshold. -/
theorem ether_quotient_small (wei : Nat) (h : wei ≤ 10 ^ 38) :
    (flFrac ⟨(flFrac ⟨wei, 1⟩).num, (flFrac ⟨wei, 1⟩).den * 10 ^ 18⟩).num <
      10 ^ 21 *
        (flFrac ⟨(flFrac ⟨wei, 1⟩).num, (flFrac ⟨wei, 1⟩).den * 10 ^ 18⟩).den := by
  have hd1 : 0 < (flFrac ⟨wei, 1⟩).den := flFrac_den_pos _
  have h1 : (flFrac ⟨wei, 1⟩).num ≤ 2 * 10 ^ 38 * (flFrac ⟨wei, 1⟩).den :=
    flFrac_le ⟨wei, 1⟩ (10 ^ 38) (by norm_num) (by norm_num)
      (by simpa using h)
  have h2 : (flFrac ⟨wei, 1⟩).num ≤
      (2 * 10 ^ 20) * ((flFrac ⟨wei, 1⟩).den * 10 ^ 18) := by
    calc (flFrac ⟨wei, 1⟩).num ≤ 2 * 10 ^ 38 * (flFrac ⟨wei, 1⟩).den := h1
      _ = (2 * 10 ^ 20) * ((flFrac ⟨wei, 1⟩).den * 10 ^ 18) := by ring
  have h3 := flFrac_le ⟨(flFrac ⟨wei, 1⟩).num, (flFrac ⟨wei, 1⟩).den * 10 ^ 18⟩
    (2 * 10 ^ 20) (Nat.mul_pos hd1 (by norm_num)) (by norm_num) h2
  have hdv :
      0 < (flFrac ⟨(flFrac ⟨wei, 1⟩).num, (flFrac ⟨wei, 1⟩).den * 10 ^ 18⟩).den :=
    flFrac_den_pos _
  calc (flFrac ⟨(flFrac ⟨wei, 1⟩).num, (flFrac ⟨wei, 1⟩).den * 10 ^ 18⟩).num
      ≤ 2 * (2 * 10 ^ 20) *
        (flFrac ⟨(flFrac ⟨wei, 1⟩).num, (flFrac ⟨wei, 1⟩).den * 10 ^ 18⟩).den := h3
    _ < 10 ^ 21 *
        (flFrac ⟨(flFrac ⟨wei, 1⟩).num, (flFrac ⟨wei, 1⟩).den * 10 ^ 18⟩).den := by
        have hc : 2 * (2 * 10 ^ 20) < 10 ^ 21 := by norm_num
        exact (Nat.mul_lt_mul_right hdv).mpr hc

/-- The fixed-six-digit rendering of any value below the exponential
threshold, once stripped, has the decimal shape. -/
theorem toFixed6_strip_shape (v : Frac) (h : v.num < 10 ^ 21 * v.den) :
    decimalShapeList (jsStripList (toFixed6 v).data) := by
  have hbranch : ¬ 10 ^ 21 * v.den ≤ v.num := by omega
  have htf : toFixed6 v =
      ⟨(natDigits (((2 * v.num * 1000000 + v.den) / (2 * v.den)) / 1000000)) ++
        '.' :: pad6 (((2 * v.num * 1000000 + v.den) / (2 * v.den)) % 1000000)⟩ := by
    simp only [toFixed6]
    rw [if_neg hbranch]
  rw [htf]
  exact strip_shape _ _ (fun c hc => natDigits_digits _ c hc)
    (fun c hc => pad6_digits _ c hc)
    (pad6_length _ (Nat.mod_lt _ (by norm_num)))

/-- C9 (amended): for every wei balance up to `10 ^ 38` — keeping the
float quotient below the `10 ^ 21` threshold at which `toFixed` falls
back to exponential `ToString` rendering — the formatted ether string has
no decimal point when the balance divides evenly by `10 ^ 18` (it is the
exact quotient rendered in decimal), and otherwise carries at most six
fractional digits with trailing zeros (and a then-dangling point)
stripped. -/
theorem getBalanceInEther_formatting :
    ∀ wei : Nat, wei ≤ 10 ^ 38 →
      (if (10 ^ 18 : Nat) ∣ wei then
        getBalanceInEther wei = natStr (wei / 10 ^ 18) ∧
          '.' ∉ (getBalanceInEther wei).data
      else decimalShape (getBalanceInEther wei)) := by
  intro wei hbound
  by_cases hdvd : (10 ^ 18 : Nat) ∣ wei
  · rw [if_pos hdvd]
    have hmod : wei % 10 ^ 18 = 0 := Nat.mod_eq_zero_of_dvd hdvd
    have hge : getBalanceInEther wei = natStr (wei / 10 ^ 18) := by
      simp only [getBalanceInEther]
      rw [if_pos hmod]
    refine ⟨hge, ?_⟩
    rw [hge]
    intro hc
    exact absurd (natDigits_digits _ '.' hc) (by decide)
  · rw [if_neg hdvd]
    have hmod : ¬ wei % 10 ^ 18 = 0 := fun h => hdvd (Nat.dvd_of_mod_eq_zero h)
    show decimalShapeList (getBalanceInEther wei).data
    have hge : getBalanceInEther wei =
        jsStripZeroSuffix (toFixed6
          (flFrac ⟨(flFrac ⟨wei, 1⟩).num, (flFrac ⟨wei, 1⟩).den * 10 ^ 18⟩)) := by
      simp only [getBalanceInEther]
      rw [if_neg hmod]
    rw [hge]
    exact toFixed6_strip_shape _ (ether_quotient_small wei hbound)

set_option maxRecDepth 40000 in
set_option maxHeartbeats 2000000 in
/-- C9 counterexample: a 43-digit wei balance (about `1.23 * 10 ^ 24`
ether) is not divisible by `10 ^ 18`, yet the formatted string is the
exponential `ToString` rendering that JS `toFixed` falls back to at
`10 ^ 21` — seventeen significant digits, sixteen of them after the
decimal point — refuting the unrestricted claim that the fractional part
carries at most six digits. -/
theorem getBalanceInEther_exponential_counterexample :
    ¬ (10 ^ 18 ∣ 1234567890123456789012345678901234567890123) ∧
    getBalanceInEther 1234567890123456789012345678901234567890123 =
      "1.2345678901234568e+24" ∧
    ¬ decimalShape
      (getBalanceInEther 1234567890123456789012345678901234567890123) := by
  have hs : getBalanceInEther 1234567890123456789012345678901234567890123 =
      "1.2345678901234568e+24" := by decide
  refine ⟨by decide, hs, ?_⟩
  rw [hs]
  decide

set_option maxRecDepth 4000 in
/-- C9 witness: a concrete balance of one and a half ether. -/
theorem getBalanceInEther_formatting_witness :
    (1500000000000000000 : Nat) ≤ 10 ^ 38 ∧
    (if (10 ^ 18 : Nat) ∣ (1500000000000000000 : Nat) then
      getBalanceInEther 1500000000000000000 =
          natStr (1500000000000000000 / 10 ^ 18) ∧
        '.' ∉ (getBalanceInEther 1500000000000000000).data
    else decimalShape (getBalanceInEther 1500000000000000000)) :=
  ⟨by norm_num,
    getBalanceInEther_formatting 1500000000000000000 (by norm_num)⟩

end ArbitrumMcp
